import Mathlib

/-!
Shallow embedding of the vscode-anycode client orchestration layer:
`src/src/supportedLanguages.ts` (language registry) and
`src/anycode/client/src/common/client.ts` (server supervisor, workspace
initializer, file content provider).
-/

namespace Anycode

/-! ## Language registry (`supportedLanguages.ts`) -/

/-- `LanguageInfo` from supportedLanguages.ts: language id, wasm asset, suffixes. -/
structure LanguageInfo where
  languageId : String
  wasmUri : String
  suffixes : List String
deriving DecidableEq, Repr

/-- The static language table built in the `SupportedLanguages` constructor
(wasm uris abbreviated to the asset file name joined onto the extension uri). -/
def allLanguages : List LanguageInfo := [
  ⟨"c", "tree-sitter-c.wasm", ["c", "i"]⟩,
  ⟨"cpp", "tree-sitter-cpp.wasm", ["cpp", "cc", "cxx", "c++", "hpp", "hh", "hxx", "h++", "h", "ii", "ino", "inl", "ipp", "ixx", "hpp.in", "h.in"]⟩,
  ⟨"csharp", "tree-sitter-c_sharp.wasm", ["cs"]⟩,
  ⟨"go", "tree-sitter-go.wasm", ["go"]⟩,
  ⟨"java", "tree-sitter-java.wasm", ["java"]⟩,
  ⟨"php", "tree-sitter-php.wasm", ["php", "php4", "php5", "phtml", "ctp"]⟩,
  ⟨"python", "tree-sitter-python.wasm", ["py", "rpy", "pyw", "cpy", "gyp", "gypi", "pyi", "ipy"]⟩,
  ⟨"rust", "tree-sitter-rust.wasm", ["rs"]⟩,
  ⟨"typescript", "tree-sitter-typescript.wasm", ["ts", "tsx"]⟩]

/-- The ambient editor state consulted by `getSupportedLanguages`:
which well-known companion extensions are installed, and the raw
per-language `anycode.language.<id>.enabled` configuration values
(`none` = no value configured). -/
structure LangEnv where
  hasTypeScriptExtension : Bool
  hasPythonExtension : Bool
  languageEnabledConfig : String → Option Bool

/-- Modelled from the spec: the extension manifest (package.json, not under
src/) declares `anycode.language.<id>.enabled` as a boolean with default
`true`, and the editor's `config.get` resolves an absent value to that
declared default. So the truthiness test `!config.get(...)` in
`getSupportedLanguages` sees `true` when the flag is absent. -/
def configGetLanguageEnabled (env : LangEnv) (id : String) : Bool :=
  (env.languageEnabledConfig id).getD true

/-- The `wellKnownIgnored` set built in `getSupportedLanguages`. -/
def wellKnownIgnored (env : LangEnv) : List String :=
  (if env.hasTypeScriptExtension then ["typescript"] else []) ++
  (if env.hasPythonExtension then ["python"] else [])

/-- The filter body of `getSupportedLanguages` (computing `_filteredAll`). -/
def computeSupportedLanguages (env : LangEnv) : List LanguageInfo :=
  allLanguages.filter fun item =>
    !(wellKnownIgnored env).contains item.languageId &&
    configGetLanguageEnabled env item.languageId

/-- `getSupportedLanguages()` with its `_filteredAll` cache made explicit:
takes the cache field and the ambient state, returns the result and the
updated cache. -/
def getSupportedLanguages (filteredAll : Option (List LanguageInfo))
    (env : LangEnv) : List LanguageInfo × Option (List LanguageInfo) :=
  match filteredAll with
  | some l => (l, some l)
  | none =>
    let r := computeSupportedLanguages env
    (r, some r)

/-- `getSupportedLanguagesAsSelector()`: the language ids of the supported
languages, in the same order. -/
def getSupportedLanguagesAsSelector (filteredAll : Option (List LanguageInfo))
    (env : LangEnv) : List String × Option (List LanguageInfo) :=
  let p := getSupportedLanguages filteredAll env
  (p.1.map (·.languageId), p.2)

/-- `_reset()`: drops the cached filtered view. -/
def resetSupportedLanguages (_filteredAll : Option (List LanguageInfo)) :
    Option (List LanguageInfo) := none

/-! ## File content provider (the `file/read` handler in client.ts) -/

/-- A parsed uri: its scheme and the rest of the location string. -/
structure Uri where
  scheme : String
  rest : String
deriving DecidableEq, Repr

/-- The editor file-system and document facilities the `file/read` handler
calls into. Fallible operations are `Except Unit`: `.error` models a
rejected promise / thrown error. -/
structure FsEnv where
  openTextDocument : Uri → Except Unit String
  isWritableFileSystem : String → Option Bool
  stat : Uri → Except Unit Nat
  readFile : Uri → Except Unit (List Nat)

/-- The UTF-8 encoding of one character (the standard 1- to 4-byte
layout), as byte values. -/
def utf8EncodeCharNat (c : Char) : List Nat :=
  let v := c.toNat
  if v ≤ 0x7f then
    [v]
  else if v ≤ 0x7ff then
    [(v >>> 6) &&& 0x1f ||| 0xc0,
     v &&& 0x3f ||| 0x80]
  else if v ≤ 0xffff then
    [(v >>> 12) &&& 0x0f ||| 0xe0,
     (v >>> 6) &&& 0x3f ||| 0x80,
     v &&& 0x3f ||| 0x80]
  else
    [(v >>> 18) &&& 0x07 ||| 0xf0,
     (v >>> 12) &&& 0x3f ||| 0x80,
     (v >>> 6) &&& 0x3f ||| 0x80,
     v &&& 0x3f ||| 0x80]

/-- `new TextEncoder().encode(text)`: the UTF-8 bytes of a string. -/
def utf8Bytes (s : String) : List Nat :=
  s.data.flatMap utf8EncodeCharNat

/-- The `file/read` request handler. The `try`/`catch` blocks of the source
become matches on `Except` that recover with an empty byte list; the
handler itself returns `Except` so that "never propagates an error" is a
provable statement rather than one true by type. -/
def fileReadHandler (env : FsEnv) (uri : Uri) : Except Unit (List Nat) :=
  if uri.scheme = "vscode-notebook-cell" then
    -- notebook branch: openTextDocument in a try/catch
    match env.openTextDocument uri with
    | .ok text => .ok (utf8Bytes text)
    | .error _ => .ok []
  else if (env.isWritableFileSystem uri.scheme).isNone then
    -- undefined means we know nothing about these uris
    .ok []
  else
    -- try { stat; size check; readFile } catch { return [] }
    match env.stat uri with
    | .error _ => .ok []
    | .ok size =>
      if size > 1024 ^ 2 then .ok []
      else
        match env.readFile uri with
        | .error _ => .ok []
        | .ok data => .ok data

/-! ## Workspace initializer (`_startServer` / `_canInitWithoutLimits`) -/

/-- A workspace folder: only its uri scheme matters to the shown code. -/
structure Folder where
  scheme : String
  name : String
deriving DecidableEq, Repr

/-- The remote-repositories companion extension api stub:
`loadWorkspaceContents` may be absent (`typeof ... !== 'function'`),
and calling it may resolve a boolean or reject. -/
structure RemoteHubApi where
  loadWorkspaceContents : Option (Folder → Except Unit Bool)

/-- The companion extension handle: `activate()` resolves an api or rejects. -/
structure RemoteHubExt where
  activate : Except Unit RemoteHubApi

/-- Ambient editor state consulted by `_canInitWithoutLimits`. -/
structure ClientEnv where
  workspaceFolders : Option (List Folder)
  remoteHub : Option RemoteHubExt

/-- The `for (const folder of remoteFolders)` loop of `_canInitWithoutLimits`:
one failed or rejected `loadWorkspaceContents` ends the loop. -/
def loadAllFolders (load : Folder → Except Unit Bool) :
    List Folder → Except Unit Bool
  | [] => .ok true
  | f :: fs =>
    match load f with
    | .error e => .error e
    | .ok false => .ok false
    | .ok true => loadAllFolders load fs

/-- `_canInitWithoutLimits()`. A missing extension makes
`remoteHub?.activate()` evaluate to `undefined`, so the
`typeof remoteHubApi?.loadWorkspaceContents !== 'function'` test fails
closed; a rejecting `activate()` or `loadWorkspaceContents` is NOT caught
by the source and propagates. -/
def canInitWithoutLimits (env : ClientEnv) : Except Unit Bool :=
  match env.workspaceFolders with
  | none => .ok false
  | some folders =>
    let remoteFolders := folders.filter fun f => f.scheme = "vscode-vfs"
    if remoteFolders.isEmpty then .ok true
    else
      match env.remoteHub with
      | none => .ok false
      | some ext =>
        match ext.activate with
        | .error e => .error e
        | .ok api =>
          match api.loadWorkspaceContents with
          | none => .ok false
          | some load => loadAllFolders load remoteFolders

/-- `Number.MAX_SAFE_INTEGER`. -/
def maxSafeInteger : Nat := 2 ^ 53 - 1

/-- `Math.max(0, config.get('symbolIndexSize', 500))`: the configured cap,
defaulted to 500 and clamped to at least 0. -/
def clampedSymbolIndexSize (cfg : Option Int) : Nat :=
  (max 0 (cfg.getD 500)).toNat

/-- What one initialization run submits and reports: the `queue/init`
payload and the measurements of the `init` telemetry event. -/
structure InitResult where
  queueInitUris : List String
  numOfFiles : Nat
  indexSize : Nat
  hasWorkspaceContents : Nat
deriving DecidableEq, Repr

/-- The body of the `findFiles(...).then(async all => ...)` continuation in
`_startServer`, together with the `size` computation just before it:
raises the cap to `Number.MAX_SAFE_INTEGER` when more than 50 files were
found and `_canInitWithoutLimits()` resolves true, truncates with
`all.slice(0, size)`, sends `queue/init` and reports telemetry.
A rejection of the capability query propagates and rejects the run. -/
def initRun (env : ClientEnv) (symbolIndexSizeCfg : Option Int)
    (files : List String) : Except Unit InitResult :=
  let size0 := clampedSymbolIndexSize symbolIndexSizeCfg
  if files.length > 50 then
    match canInitWithoutLimits env with
    | .error e => .error e
    | .ok true =>
      let uris := files.take maxSafeInteger
      .ok ⟨uris, files.length, uris.length, 1⟩
    | .ok false =>
      let uris := files.take size0
      .ok ⟨uris, files.length, uris.length, 0⟩
  else
    let uris := files.take size0
    .ok ⟨uris, files.length, uris.length, 0⟩

/-! ## Server start (`_startServer` up to the initialization options) -/

/-- The per-language feature flags of the supported-languages map that
`_startServer` consults when collecting `findAndSearchSuffixes`. -/
structure FeatureConfig where
  workspaceSymbols : Bool
  references : Bool
  definitions : Bool
deriving DecidableEq, Repr

/-- The inputs of one `_startServer` call that the embedding needs: the
awaited supported-languages map, the awaited document selector, and the
fresh `Math.random().toString(32).slice(2)` suffix that would be used if
no database name is persisted. -/
structure StartInput where
  supported : List (LanguageInfo × FeatureConfig)
  selector : List String
  freshRandom : String

/-- A started server: the resolved database name, the glob pattern used
for the watcher and discovery, and the fields of `initializationOptions`. -/
structure StartedServer where
  databaseName : String
  langPattern : String
  initOptionsSupportedLanguages : List (LanguageInfo × FeatureConfig)
  initOptionsDatabaseName : String
deriving DecidableEq, Repr

/-- The outcome of `_startServer`: either the empty-disposable early return
(no watcher, no client) or a started server. -/
inductive StartOutcome where
  | noop
  | started (s : StartedServer)
deriving DecidableEq, Repr

/-- The database name a start outcome carries, if any. -/
def StartOutcome.dbName? : StartOutcome → Option String
  | .noop => none
  | .started s => some s.databaseName

/-- `` `**/*.{${findAndSearchSuffixes.join(',')}}` ``: JS `join` also
stringifies each inner suffix array with commas. -/
def langPatternOf (findAndSearchSuffixes : List (List String)) : String :=
  "**/*.\x7b" ++
    String.intercalate "," (findAndSearchSuffixes.map (String.intercalate ",")) ++
  "\x7d"

/-- `_startServer` as a state transformer on the persisted
`workspaceState` entry `dbName`: the early return on an empty selector,
the read-or-create of the database name, its write-back, the suffix
collection and the construction of `initializationOptions`. -/
def startServerModel (inp : StartInput) (dbNameState : Option String) :
    StartOutcome × Option String :=
  if inp.selector.length = 0 then
    (.noop, dbNameState)
  else
    let databaseName := dbNameState.getD ("anycode_" ++ inp.freshRandom)
    let newState := some databaseName
    let findAndSearchSuffixes :=
      (inp.supported.filter fun p =>
        p.2.workspaceSymbols || p.2.references || p.2.definitions).map
        fun p => p.1.suffixes
    let langPattern := langPatternOf findAndSearchSuffixes
    (.started ⟨databaseName, langPattern, inp.supported, databaseName⟩, newState)

/-- A sequence of `_startServer` calls threading the persisted `dbName`
workspace state: returns the outcomes in order and the final state. -/
def startServerRuns (dbNameState : Option String) :
    List StartInput → List StartOutcome × Option String
  | [] => ([], dbNameState)
  | inp :: rest =>
    let p := startServerModel inp dbNameState
    let q := startServerRuns p.2 rest
    (p.1 :: q.1, q.2)

/-! ## Server supervisor (`startClient`) -/

/-- One entry of `serverHandles`: a promise of a disposable. `fulfilled`
records how the promise eventually settles (`false` = rejected), `id`
identifies the underlying disposable. -/
structure ServerHandle where
  id : Nat
  fulfilled : Bool
deriving DecidableEq, Repr

/-- A suspended `onDidChange` handler invocation: it has run the
synchronous first half of `stopServers` (snapshot `serverHandles`, clear
the array) and is suspended at `await Promise.allSettled(oldHandles)`.
`snapshot` is the array it took; `toStart` is the handle its
`startServer()` will push once it resumes. -/
structure PendingHandler where
  snapshot : List ServerHandle
  toStart : ServerHandle
deriving DecidableEq, Repr

/-- The supervisor state of `startClient`: the `serverHandles` array, the
ids disposed so far, and the handler invocations currently suspended at
their `allSettled` await, oldest first. -/
structure SupervisorState where
  serverHandles : List ServerHandle
  disposed : List Nat
  waiting : List PendingHandler
deriving DecidableEq, Repr

/-- One scheduler event of the single-threaded host. `notify h` fires the
`onDidChange` handler: it synchronously snapshots and clears
`serverHandles` and suspends awaiting `allSettled` (its eventual
`startServer()` will push `h`). `resume i` wakes the i-th suspended
handler: its awaited snapshot has settled, so it disposes the fulfilled
handles of the snapshot and pushes its new handle, all synchronously.
The order of resumes is set by when the awaited promises settle, so any
interleaving of resumes with later notifications is realizable. -/
inductive SupEvent where
  | notify (h : ServerHandle)
  | resume (i : Nat)
deriving DecidableEq, Repr

/-- The state transition of one scheduler event. -/
def stepSupervisor (s : SupervisorState) (e : SupEvent) : SupervisorState :=
  match e with
  | .notify h =>
    { serverHandles := [],
      disposed := s.disposed,
      waiting := s.waiting ++ [⟨s.serverHandles, h⟩] }
  | .resume i =>
    match s.waiting[i]? with
    | none => s
    | some p =>
      { serverHandles := s.serverHandles ++ [p.toStart],
        disposed := s.disposed ++ ((p.snapshot.filter (·.fulfilled)).map (·.id)),
        waiting := s.waiting.eraseIdx i }

/-- A run of the supervisor over a schedule of events. -/
def runSupervisor (s : SupervisorState) (es : List SupEvent) : SupervisorState :=
  es.foldl stepSupervisor s

/-- The state right after `startClient` ran: one pushed handle, nothing
disposed, no handler suspended. -/
def initialSupervisor (h0 : ServerHandle) : SupervisorState :=
  ⟨[h0], [], []⟩

/-- A non-overlapping schedule: each notification's handler resumes (its
`allSettled` resolves, it disposes, it starts the new server) before the
next notification fires. -/
def serializedEvents (hs : List ServerHandle) : List SupEvent :=
  hs.flatMap fun h => [.notify h, .resume 0]

/-- A rapid two-notification schedule: the second notification fires
while the first handler is still awaiting `allSettled` on the pending
initial handle; the second handler's `allSettled([])` resolves first
(its snapshot is the already-cleared array), and only later does the
initial handle settle and the first handler resume. -/
def rapidEvents : List SupEvent :=
  [.notify ⟨1, true⟩, .notify ⟨2, true⟩, .resume 1, .resume 0]

/-! ## Derived abbreviations and concrete instances used by the proofs -/

/-- The glob pattern `_startServer` builds for a given supported map. -/
def startPatternOf (supported : List (LanguageInfo × FeatureConfig)) : String :=
  langPatternOf ((supported.filter fun p =>
    p.2.workspaceSymbols || p.2.references || p.2.definitions).map
    fun p => p.1.suffixes)

/-- A registry state: the typescript companion extension installed,
`anycode.language.go.enabled` explicitly set to false, everything else
at its default. -/
def langEnvW : LangEnv :=
  ⟨true, false, fun id => if id = "go" then some false else none⟩

/-- A second registry state: no companion extensions, no configuration. -/
def langEnvW2 : LangEnv := ⟨false, false, fun _ => none⟩

/-- A file-system state: `file:` is a known writable scheme; the location
named `big` stats over 1 MiB, `bad` fails to stat, `unreadable` fails to
read, `open` is an open notebook document with text "ab". -/
def fsEnvW : FsEnv :=
  ⟨fun u => if u.rest = "open" then .ok "ab" else .error (),
   fun s => if s = "file" then some true else none,
   fun u => if u.rest = "big" then .ok 1048577
     else if u.rest = "bad" then .error () else .ok 3,
   fun u => if u.rest = "unreadable" then .error () else .ok [1, 2, 3]⟩

/-- A non-virtual workspace: one local folder, no remote-repositories
extension installed. -/
def clientEnvLocalW : ClientEnv := ⟨some [⟨"file", "w"⟩], none⟩

/-- A virtual workspace whose remote-repositories extension is installed
and activates, but whose `loadWorkspaceContents` call rejects. -/
def clientEnvThrowing : ClientEnv :=
  ⟨some [⟨"vscode-vfs", "repo"⟩], some ⟨.ok ⟨some fun _ => .error ()⟩⟩⟩

/-- A start input with one enabled language. -/
def startInpW : StartInput :=
  ⟨[(⟨"go", "tree-sitter-go.wasm", ["go"]⟩, ⟨true, false, false⟩)], ["go"], "r1"⟩

/-! ## Theorems -/

/-- C2: a language of the static table is returned by
`getSupportedLanguages()` iff its `anycode.language.<id>.enabled` flag is
true or absent AND no shadowing companion extension is present
(typescript shadowed by `vscode.typescript-language-features`, python by
`ms-python.python`). -/
theorem c2_enabled_iff (env : LangEnv) (lang : LanguageInfo)
    (hmem : lang ∈ allLanguages) :
    lang ∈ (getSupportedLanguages none env).1 ↔
      ((env.languageEnabledConfig lang.languageId = some true ∨
        env.languageEnabledConfig lang.languageId = none) ∧
       ¬(lang.languageId = "typescript" ∧ env.hasTypeScriptExtension = true) ∧
       ¬(lang.languageId = "python" ∧ env.hasPythonExtension = true)) := by
  show lang ∈ computeSupportedLanguages env ↔ _
  rw [computeSupportedLanguages, List.mem_filter]
  simp only [hmem, true_and, Bool.and_eq_true, Bool.not_eq_true',
    configGetLanguageEnabled, wellKnownIgnored]
  cases hts : env.hasTypeScriptExtension <;>
    cases hpy : env.hasPythonExtension <;>
      cases hcfg : env.languageEnabledConfig lang.languageId <;>
        simp_all <;> tauto

/-- C2 witness: with the typescript extension installed and go disabled,
java (flag absent, not shadowed) is in the enabled set. -/
theorem c2_enabled_iff_witness :
    (⟨"java", "tree-sitter-java.wasm", ["java"]⟩ : LanguageInfo) ∈ allLanguages ∧
    (⟨"java", "tree-sitter-java.wasm", ["java"]⟩ : LanguageInfo) ∈
      (getSupportedLanguages none langEnvW).1 :=
  ⟨by decide,
   (c2_enabled_iff langEnvW ⟨"java", "tree-sitter-java.wasm", ["java"]⟩
     (by decide)).mpr
     (by refine ⟨Or.inr rfl, ?_, ?_⟩ <;> simp [langEnvW])⟩

/-- C10: every result of `getSupportedLanguages()` is an order-preserving
subsequence of the fixed nine-entry static table (whose ids are c, cpp,
csharp, go, java, php, python, rust, typescript in order); repeated calls
with no intervening reset return the identical cached list; and
`getSupportedLanguagesAsSelector()` returns exactly the ids of that list
in the same order. -/
theorem c10_table_cache_selector :
    (allLanguages.map (·.languageId) =
      ["c", "cpp", "csharp", "go", "java", "php", "python", "rust", "typescript"])
  ∧ (∀ env : LangEnv, (getSupportedLanguages none env).1.Sublist allLanguages)
  ∧ (∀ (env1 env2 : LangEnv),
      getSupportedLanguages (getSupportedLanguages none env1).2 env2 =
        getSupportedLanguages none env1)
  ∧ (∀ (st : Option (List LanguageInfo)) (env : LangEnv),
      getSupportedLanguagesAsSelector st env =
        ((getSupportedLanguages st env).1.map (·.languageId),
         (getSupportedLanguages st env).2)) := by
  refine ⟨by decide, fun env => ?_, fun env1 env2 => rfl, fun st env => rfl⟩
  exact List.filter_sublist _

/-- C10 witness: the cache and the sublist property at two concrete
registry states. -/
theorem c10_table_cache_selector_witness :
    (getSupportedLanguages none langEnvW2).1.Sublist allLanguages ∧
    getSupportedLanguages (getSupportedLanguages none langEnvW2).2 langEnvW =
      getSupportedLanguages none langEnvW2 :=
  ⟨c10_table_cache_selector.2.1 langEnvW2,
   c10_table_cache_selector.2.2.1 langEnvW2 langEnvW⟩

/-- C4: the `file/read` handler always answers with a byte sequence,
never an error: a notebook-open failure, an unknown scheme, a stat
failure or a read failure each yield the empty sequence. -/
theorem c4_graceful (env : FsEnv) (uri : Uri) :
    (∃ bs, fileReadHandler env uri = .ok bs)
  ∧ (uri.scheme = "vscode-notebook-cell" →
      ∀ e, env.openTextDocument uri = .error e → fileReadHandler env uri = .ok [])
  ∧ (uri.scheme ≠ "vscode-notebook-cell" →
      env.isWritableFileSystem uri.scheme = none → fileReadHandler env uri = .ok [])
  ∧ (uri.scheme ≠ "vscode-notebook-cell" →
      ∀ e, env.stat uri = .error e → fileReadHandler env uri = .ok [])
  ∧ (uri.scheme ≠ "vscode-notebook-cell" →
      ∀ n, env.stat uri = .ok n → ¬(n > 1024 ^ 2) →
      ∀ e, env.readFile uri = .error e → fileReadHandler env uri = .ok []) := by
  refine ⟨?_, ?_, ?_, ?_, ?_⟩
  · unfold fileReadHandler
    repeat' split <;> try exact ⟨_, rfl⟩
  · intro h e he
    simp [fileReadHandler, h, he]
  · intro h hw
    simp [fileReadHandler, h, hw]
  · intro h e he
    simp [fileReadHandler, h, he]
  · intro h n hn hsize e he
    simp [fileReadHandler, h, hn, hsize, he]

/-- C4 witness: a failing stat on a known file-system scheme yields the
empty sequence. -/
theorem c4_graceful_witness :
    (⟨"file", "bad"⟩ : Uri).scheme ≠ "vscode-notebook-cell" ∧
    fileReadHandler fsEnvW ⟨"file", "bad"⟩ = .ok [] := by
  refine ⟨by decide, ?_⟩
  exact (c4_graceful fsEnvW ⟨"file", "bad"⟩).2.2.2.1 (by decide) () rfl

/-- C5: on the file-system branch, a stat size above 1 MiB yields the
empty sequence, and a size of at most 1 MiB yields the full byte content
of the file. -/
theorem c5_size_limit (env : FsEnv) (uri : Uri) (b : Bool) (n : Nat)
    (hnb : uri.scheme ≠ "vscode-notebook-cell")
    (hfs : env.isWritableFileSystem uri.scheme = some b)
    (hstat : env.stat uri = .ok n) :
    (n > 1024 ^ 2 → fileReadHandler env uri = .ok [])
  ∧ (n ≤ 1024 ^ 2 → ∀ data, env.readFile uri = .ok data →
      fileReadHandler env uri = .ok data) := by
  constructor
  · intro hbig
    simp [fileReadHandler, hnb, hfs, hstat, hbig]
    exact fun hle => absurd hbig (by omega)
  · intro hsmall data hr
    simp [fileReadHandler, hnb, hfs, hstat, hr]
    exact fun hlt => absurd hlt (by omega)

/-- C5 witness: a 1048577-byte file is answered empty, a 3-byte file is
answered in full. -/
theorem c5_size_limit_witness :
    fileReadHandler fsEnvW ⟨"file", "big"⟩ = .ok [] ∧
    fileReadHandler fsEnvW ⟨"file", "ok"⟩ = .ok [1, 2, 3] := by
  constructor
  · exact (c5_size_limit fsEnvW ⟨"file", "big"⟩ true 1048577
      (by decide) rfl rfl).1 (by decide)
  · exact (c5_size_limit fsEnvW ⟨"file", "ok"⟩ true 3
      (by decide) rfl rfl).2 (by decide) _ rfl

/-- C9: for a `vscode-notebook-cell` location whose document opens, the
handler returns the full UTF-8 encoding of the cell text, for any text —
in particular the 1 MiB limit of the file-system branch never applies. -/
theorem c9_notebook_unlimited (env : FsEnv) (uri : Uri) (text : String)
    (hnb : uri.scheme = "vscode-notebook-cell")
    (hopen : env.openTextDocument uri = .ok text) :
    fileReadHandler env uri = .ok (utf8Bytes text)
  ∧ (1024 ^ 2 < (utf8Bytes text).length →
      fileReadHandler env uri = .ok (utf8Bytes text)) := by
  constructor
  · simp [fileReadHandler, hnb, hopen]
  · intro _
    simp [fileReadHandler, hnb, hopen]

/-- C9 witness: reading the open notebook cell returns its UTF-8 bytes. -/
theorem c9_notebook_unlimited_witness :
    fileReadHandler fsEnvW ⟨"vscode-notebook-cell", "open"⟩ = .ok [97, 98] := by
  have h := (c9_notebook_unlimited fsEnvW ⟨"vscode-notebook-cell", "open"⟩
    "ab" rfl rfl).1
  simpa using h

/-- Helper: whenever the cap is not lifted (at most 50 files found, or
the capability query resolves false), the run submits the first
`clampedSymbolIndexSize` files and reports the default-cap telemetry. -/
theorem initRun_default_cap (env : ClientEnv) (cfg : Option Int)
    (files : List String)
    (h : files.length ≤ 50 ∨ canInitWithoutLimits env = .ok false) :
    initRun env cfg files =
      .ok ⟨files.take (clampedSymbolIndexSize cfg), files.length,
        min (clampedSymbolIndexSize cfg) files.length, 0⟩ := by
  rcases h with hle | hq
  · simp [initRun, Nat.not_lt.mpr hle, List.length_take]
  · by_cases hgt : files.length > 50
    · simp [initRun, hgt, hq, List.length_take]
    · simp [initRun, hgt, List.length_take]

/-- C1: with discovered count F and configured cap C (default 500,
clamped to at least 0): F ≤ 50 keeps cap C; F > 50 with the capability
query resolving true lifts the cap (all F files submitted, as long as F
fits `Number.MAX_SAFE_INTEGER`); otherwise cap C. The `queue/init`
payload is the first min(F, cap) files in discovery order and the `init`
telemetry reports numOfFiles = F and indexSize = the submitted count. -/
theorem c1_effective_cap (env : ClientEnv) (cfg : Option Int)
    (files : List String) :
    (files.length ≤ 50 →
      initRun env cfg files =
        .ok ⟨files.take (clampedSymbolIndexSize cfg), files.length,
          min (clampedSymbolIndexSize cfg) files.length, 0⟩)
  ∧ (50 < files.length → canInitWithoutLimits env = .ok true →
      files.length ≤ maxSafeInteger →
      initRun env cfg files = .ok ⟨files, files.length, files.length, 1⟩)
  ∧ (50 < files.length → canInitWithoutLimits env = .ok false →
      initRun env cfg files =
        .ok ⟨files.take (clampedSymbolIndexSize cfg), files.length,
          min (clampedSymbolIndexSize cfg) files.length, 0⟩) := by
  refine ⟨fun hle => initRun_default_cap env cfg files (Or.inl hle),
    fun hgt hq hsafe => ?_,
    fun _ hq => initRun_default_cap env cfg files (Or.inr hq)⟩
  have htake : files.take maxSafeInteger = files :=
    List.take_of_length_le hsafe
  simp [initRun, hgt, hq, htake]

/-- C1 witness: 51 files in a local workspace (capability true) are all
submitted despite a configured cap of 2; 3 files under the same cap are
truncated to 2. -/
theorem c1_effective_cap_witness :
    (50 < (List.replicate 51 "f").length ∧
      canInitWithoutLimits clientEnvLocalW = .ok true ∧
      initRun clientEnvLocalW (some 2) (List.replicate 51 "f") =
        .ok ⟨List.replicate 51 "f", 51, 51, 1⟩) ∧
    initRun clientEnvLocalW (some 2) ["a", "b", "c"] =
      .ok ⟨["a", "b", "c"].take 2, 3, 2, 0⟩ := by
  constructor
  · refine ⟨by decide, rfl, ?_⟩
    have h := (c1_effective_cap clientEnvLocalW (some 2)
      (List.replicate 51 "f")).2.1 (by decide) rfl (by decide)
    simpa using h
  · have h := (c1_effective_cap clientEnvLocalW (some 2) ["a", "b", "c"]).1
      (by decide)
    simpa using h

/-- C6 counterexample: in a virtual workspace whose
`loadWorkspaceContents` call rejects, the capability query rejects and
the whole initialization run rejects with it (no `queue/init`, no
telemetry) — the claim that a capability-query failure is never fatal to
initialization is false on the code, which has no catch around the
query. -/
theorem c6_capability_counterexample :
    canInitWithoutLimits clientEnvThrowing = .error () ∧
    initRun clientEnvThrowing (some 500) (List.replicate 51 "file") = .error () :=
  ⟨rfl, rfl⟩

/-- C6 amended: a capability query that completes with a negative answer
(no workspace folders, remote folders but no remote-repositories
extension, or an api without `loadWorkspaceContents`) resolves false and
is treated as capability absent — the cap stays at its configured
default and the run succeeds; but a rejecting query propagates and
rejects the run. -/
theorem c6_capability_fails_closed (env : ClientEnv) (cfg : Option Int)
    (files : List String) :
    (canInitWithoutLimits env = .ok false →
      initRun env cfg files =
        .ok ⟨files.take (clampedSymbolIndexSize cfg), files.length,
          min (clampedSymbolIndexSize cfg) files.length, 0⟩)
  ∧ (env.workspaceFolders = none → canInitWithoutLimits env = .ok false)
  ∧ (∀ folders, env.workspaceFolders = some folders →
      (folders.filter fun f => f.scheme = "vscode-vfs") ≠ [] →
      env.remoteHub = none → canInitWithoutLimits env = .ok false)
  ∧ (∀ folders ext api, env.workspaceFolders = some folders →
      (folders.filter fun f => f.scheme = "vscode-vfs") ≠ [] →
      env.remoteHub = some ext → ext.activate = .ok api →
      api.loadWorkspaceContents = none → canInitWithoutLimits env = .ok false)
  ∧ (∀ e, 50 < files.length → canInitWithoutLimits env = .error e →
      initRun env cfg files = .error e) := by
  refine ⟨fun hq => initRun_default_cap env cfg files (Or.inr hq),
    fun h => by simp [canInitWithoutLimits, h],
    fun folders hf hne hhub => ?_,
    fun folders ext api hf hne hhub hact hload => ?_,
    fun e hgt hq => by simp [initRun, hgt, hq]⟩
  · simp [canInitWithoutLimits, hf, hne, hhub, List.isEmpty_iff]
  · simp [canInitWithoutLimits, hf, hne, hhub, hact, hload, List.isEmpty_iff]

/-- C6 witness: with no workspace folders the query resolves false and 51
files are still indexed under the default cap of 500. -/
theorem c6_capability_fails_closed_witness :
    canInitWithoutLimits (⟨none, none⟩ : ClientEnv) = .ok false ∧
    initRun (⟨none, none⟩ : ClientEnv) none (List.replicate 51 "f") =
      .ok ⟨(List.replicate 51 "f").take 500, 51, 51, 0⟩ := by
  have hq : canInitWithoutLimits (⟨none, none⟩ : ClientEnv) = .ok false :=
    (c6_capability_fails_closed ⟨none, none⟩ none []).2.1 rfl
  refine ⟨hq, ?_⟩
  have h := (c6_capability_fails_closed ⟨none, none⟩ none
    (List.replicate 51 "f")).1 hq
  simpa using h

/-- C7: an empty document selector (no enabled languages) makes
`_startServer` return the no-op placeholder at once — no watcher, no
client, no database-name write, no error. -/
theorem c7_no_languages_noop (inp : StartInput) (st : Option String)
    (h : inp.selector = []) :
    startServerModel inp st = (.noop, st) := by
  simp [startServerModel, h]

/-- C7 witness: the no-op outcome at a concrete empty-selector input. -/
theorem c7_no_languages_noop_witness :
    startServerModel ⟨[], [], "r"⟩ (some "anycode_x") = (.noop, some "anycode_x") :=
  c7_no_languages_noop ⟨[], [], "r"⟩ (some "anycode_x") rfl

/-- Helper: one start with a persisted name keeps the state and, if it
starts at all, uses exactly the persisted name. -/
theorem startServerModel_persisted (inp : StartInput) (n : String) :
    (startServerModel inp (some n)).2 = some n ∧
    ((startServerModel inp (some n)).1 = .noop ∨
     (startServerModel inp (some n)).1.dbName? = some n) := by
  by_cases h : inp.selector.length = 0 <;>
    simp [startServerModel, h, StartOutcome.dbName?]

/-- Helper: a run sequence beginning with a persisted name never changes
it, and every started run uses it. -/
theorem startServerRuns_persisted (inps : List StartInput) (n : String) :
    (startServerRuns (some n) inps).2 = some n ∧
    ∀ o ∈ (startServerRuns (some n) inps).1,
      o = .noop ∨ o.dbName? = some n := by
  induction inps with
  | nil => exact ⟨rfl, by simp [startServerRuns]⟩
  | cons inp rest ih =>
    have h1 := startServerModel_persisted inp n
    constructor
    · show (startServerRuns (startServerModel inp (some n)).2 rest).2 = some n
      rw [h1.1]
      exact ih.1
    · intro o ho
      simp only [startServerRuns, List.mem_cons] at ho
      rcases ho with rfl | ho
      · exact h1.2
      · rw [h1.1] at ho
        exact ih.2 o ho

/-- C8: the database name is read-or-created once: with a persisted name
every start reuses it verbatim (also in the initialization options) and
re-persists it; with none persisted, a start generates
`anycode_<random>`, persists it, and every later start in the sequence
uses that same name. -/
theorem c8_database_name (inp : StartInput) :
    (∀ n, inp.selector ≠ [] →
      startServerModel inp (some n) =
        (.started ⟨n, startPatternOf inp.supported, inp.supported, n⟩, some n))
  ∧ (inp.selector ≠ [] →
      startServerModel inp none =
        (.started ⟨"anycode_" ++ inp.freshRandom, startPatternOf inp.supported,
          inp.supported, "anycode_" ++ inp.freshRandom⟩,
         some ("anycode_" ++ inp.freshRandom)))
  ∧ (∀ (inps : List StartInput) (n : String),
      (startServerRuns (some n) inps).2 = some n ∧
      ∀ o ∈ (startServerRuns (some n) inps).1, o = .noop ∨ o.dbName? = some n)
  ∧ (∀ (inps : List StartInput), inp.selector ≠ [] →
      (startServerRuns none (inp :: inps)).2 =
        some ("anycode_" ++ inp.freshRandom) ∧
      ∀ o ∈ (startServerRuns none (inp :: inps)).1,
        o = .noop ∨ o.dbName? = some ("anycode_" ++ inp.freshRandom)) := by
  have hlen : inp.selector ≠ [] → ¬ inp.selector.length = 0 := by
    intro h hc
    exact h (List.length_eq_zero.mp hc)
  refine ⟨fun n hne => ?_, fun hne => ?_,
    fun inps n => startServerRuns_persisted inps n, fun inps hne => ?_⟩
  · simp [startServerModel, hlen hne, startPatternOf]
  · simp [startServerModel, hlen hne, startPatternOf]
  · have hfirst : startServerModel inp none =
        (.started ⟨"anycode_" ++ inp.freshRandom, startPatternOf inp.supported,
          inp.supported, "anycode_" ++ inp.freshRandom⟩,
         some ("anycode_" ++ inp.freshRandom)) := by
      simp [startServerModel, hlen hne, startPatternOf]
    constructor
    · show (startServerRuns (startServerModel inp none).2 inps).2 = _
      rw [hfirst]
      exact (startServerRuns_persisted inps _).1
    · intro o ho
      simp only [startServerRuns, List.mem_cons] at ho
      rcases ho with rfl | ho
      · right
        rw [hfirst]
        rfl
      · rw [hfirst] at ho
        exact (startServerRuns_persisted inps _).2 o ho

/-- C8 witness: a persisted name `anycode_old` is reused verbatim, and two
fresh starts from an empty state persist the first generated name. -/
theorem c8_database_name_witness :
    startInpW.selector ≠ [] ∧
    startServerModel startInpW (some "anycode_old") =
      (.started ⟨"anycode_old", startPatternOf startInpW.supported,
        startInpW.supported, "anycode_old"⟩, some "anycode_old") ∧
    (startServerRuns none [startInpW, startInpW]).2 = some "anycode_r1" :=
  ⟨by decide,
   (c8_database_name startInpW).1 "anycode_old" (by decide),
   ((c8_database_name startInpW).2.2.2 [startInpW] (by decide)).1⟩

/-- C3 counterexample: two rapid notifications, both handled to
completion (`waiting = []` at the end), leave TWO live server handles:
the second handler fires while the first is suspended in `stopServers`,
snapshots the already-cleared `serverHandles`, and starts its server
(handle 2) while the initial handle 0 is still un-stopped; the first
handler later disposes handle 0 and starts handle 1. The prefix after
`resume 1` shows handle 2 already started while the first handler's stop
of handle 0 was still in flight. -/
theorem c3_rapid_counterexample :
    (runSupervisor (initialSupervisor ⟨0, true⟩) rapidEvents).waiting = [] ∧
    (runSupervisor (initialSupervisor ⟨0, true⟩) rapidEvents).serverHandles =
      [⟨2, true⟩, ⟨1, true⟩] ∧
    (runSupervisor (initialSupervisor ⟨0, true⟩)
      [.notify ⟨1, true⟩, .notify ⟨2, true⟩, .resume 1]).serverHandles =
      [⟨2, true⟩] ∧
    (runSupervisor (initialSupervisor ⟨0, true⟩)
      [.notify ⟨1, true⟩, .notify ⟨2, true⟩, .resume 1]).waiting =
      [⟨[⟨0, true⟩], ⟨1, true⟩⟩] :=
  ⟨rfl, rfl, rfl, rfl⟩

/-- Helper: from a state with one live handle and no suspended handler, a
non-overlapping schedule keeps exactly one live handle (the latest) and
disposes exactly the fulfilled prior handles, in order. -/
theorem runSupervisor_serialized (hs : List ServerHandle) :
    ∀ (d : List Nat) (x : ServerHandle),
      runSupervisor ⟨[x], d, []⟩ (serializedEvents hs) =
        ⟨[hs.getLastD x],
         d ++ (((x :: hs).dropLast).filter (·.fulfilled)).map (·.id),
         []⟩ := by
  induction hs with
  | nil => intro d x; simp [serializedEvents, runSupervisor]
  | cons h t ih =>
    intro d x
    have hpair : runSupervisor ⟨[x], d, []⟩ [.notify h, .resume 0] =
        ⟨[h], d ++ (([x].filter (·.fulfilled)).map (·.id)), []⟩ := by
      simp [runSupervisor, stepSupervisor]
    have hsplit : serializedEvents (h :: t) =
        [.notify h, .resume 0] ++ serializedEvents t := by
      simp [serializedEvents]
    rw [hsplit]
    show runSupervisor ⟨[x], d, []⟩ ([.notify h, .resume 0] ++ serializedEvents t) = _
    rw [runSupervisor, List.foldl_append]
    have hrec := ih (d ++ (([x].filter (·.fulfilled)).map (·.id))) h
    rw [show ([SupEvent.notify h, SupEvent.resume 0].foldl stepSupervisor
      ⟨[x], d, []⟩) = ⟨[h], d ++ (([x].filter (·.fulfilled)).map (·.id)), []⟩
      from hpair]
    rw [show ((serializedEvents t).foldl stepSupervisor
      ⟨[h], d ++ (([x].filter (·.fulfilled)).map (·.id)), []⟩) =
      runSupervisor ⟨[h], d ++ (([x].filter (·.fulfilled)).map (·.id)), []⟩
        (serializedEvents t) from rfl]
    rw [hrec, List.getLastD_cons, List.append_assoc]
    cases t with
    | nil => simp
    | cons u v =>
      have : ([x].filter (·.fulfilled)).map (·.id) ++
          (((h :: (u :: v).dropLast)).filter (·.fulfilled)).map (·.id) =
          (((x :: h :: (u :: v).dropLast)).filter (·.fulfilled)).map (·.id) := by
        cases hx : x.fulfilled <;> simp [List.filter_cons, hx]
      simp only [List.dropLast_cons₂, this]

/-- C3 amended: when change notifications do not overlap — each handler
completes its awaited stop and its new start before the next
notification fires — exactly one server handle remains current (the
latest), no handler stays suspended, and exactly the fulfilled prior
handles were disposed, in order; a rejected handle is skipped without
preventing the disposal of its siblings (the all-settled semantics). -/
theorem c3_serialized_restart (h0 : ServerHandle) (hs : List ServerHandle) :
    (runSupervisor (initialSupervisor h0) (serializedEvents hs)).serverHandles =
      [hs.getLastD h0] ∧
    (runSupervisor (initialSupervisor h0) (serializedEvents hs)).disposed =
      (((h0 :: hs).dropLast).filter (·.fulfilled)).map (·.id) ∧
    (runSupervisor (initialSupervisor h0) (serializedEvents hs)).waiting = [] := by
  have h := runSupervisor_serialized hs [] h0
  rw [show initialSupervisor h0 = ⟨[h0], [], []⟩ from rfl, h]
  exact ⟨rfl, by simp, rfl⟩

end Anycode
